import Mathlib

/-!
Shallow embedding of `src/accessibility_events.c` from the
`qmk_accessibility_hid` repository, and verification of its specification.

The C module keeps three pieces of process-wide mutable state:
`previous_layer : uint8_t` (initialized to 255), `caps_word_state : bool`
(initialized to false), and the function-local `static uint32_t last_time = 0`
inside `accessibility_send_layer_change`.  We gather them into one state
record.  Machine integers are modelled as `Nat` with explicit reduction
modulo `2^32` where `uint32_t` overflow matters (the debounce subtraction
`current_time - last_time`).

External collaborators (modelled from the spec, their code is not in this
repository): `raw_hid_send` is fire-and-forget, so each operation simply
returns the list of 32-byte reports it transmitted, in order; `timer_read`
is a monotonic millisecond clock whose reading is passed in as the
`current_time` argument (a real millisecond count; the machine sees it
reduced modulo `2^32`); `get_highest_layer(layer_state)` is passed in as
the `highest_layer` argument of `raw_hid_receive`.  The `uprintf` calls are
diagnostic-only and gated behind `CONSOLE_ENABLE`; they are omitted.
`CAPS_WORD_ENABLE` is taken as defined, so the caps-word functions and
state are present.
-/

/-- Modulus of `uint32_t` arithmetic. -/
def U32 : Nat := 4294967296

/-- The process-wide mutable state of `accessibility_events.c`:
`previous_layer` (line 22), `caps_word_state` (line 25), and the
`static uint32_t last_time` of `accessibility_send_layer_change` (line 41).
`last_time` always holds a value `< U32` (it is only ever written reduced
modulo `U32`). -/
structure AccState where
  previous_layer : Nat
  caps_word_state : Bool
  last_time : Nat
deriving DecidableEq

/-- Startup state: `previous_layer = 255` (an invalid layer),
`caps_word_state = false`, `last_time = 0`. -/
def initState : AccState :=
  { previous_layer := 255, caps_word_state := false, last_time := 0 }

/-- A 32-byte raw HID report, zero-filled, with bytes 0 and 1 set:
`uint8_t data[32] = {0}; data[0] = b0; data[1] = b1;`. -/
def mkReport (b0 b1 : Nat) : List Nat :=
  b0 :: b1 :: List.replicate 30 0

/-- `uint32_t` subtraction `a - b` modulo `2^32`. -/
def usub32 (a b : Nat) : Nat :=
  (a % U32 + (U32 - b % U32)) % U32

/-- Embedding of `raw_hid_receive(uint8_t *data, uint8_t length)`
(lines 28-38).  The buffer is a total byte lookup `data : Nat → Nat`
(the C code reads `data[0]` unconditionally); `length` is the declared
length parameter (never read by the C code); `highest_layer` is the live
value of `get_highest_layer(layer_state)`.  Returns the transmitted
reports. -/
def raw_hid_receive (data : Nat → Nat) (length : Nat) (highest_layer : Nat) :
    List (List Nat) :=
  if data 0 = 99 then [mkReport 99 highest_layer] else []

/-- Embedding of `accessibility_send_layer_change(uint8_t layer)`
(lines 40-60).  `current_time` is the millisecond count read by
`timer_read()` (used modulo `2^32`).  Returns the new state and the
transmitted reports.  Note the early return on line 45 happens before the
`last_time = current_time` update on line 59. -/
def accessibility_send_layer_change (layer current_time : Nat) (s : AccState) :
    AccState × List (List Nat) :=
  if usub32 current_time s.last_time < 200 then
    (s, [])
  else if layer ≠ s.previous_layer then
    ({ s with previous_layer := layer, last_time := current_time % U32 },
      [mkReport 1 layer])
  else
    ({ s with last_time := current_time % U32 }, [])

/-- Embedding of `accessibility_send_caps_word_on(void)` (lines 63-74). -/
def accessibility_send_caps_word_on (s : AccState) : AccState × List (List Nat) :=
  if !s.caps_word_state then
    ({ s with caps_word_state := true }, [mkReport 2 1])
  else
    (s, [])

/-- Embedding of `accessibility_send_caps_word_off(void)` (lines 76-87). -/
def accessibility_send_caps_word_off (s : AccState) : AccState × List (List Nat) :=
  if s.caps_word_state then
    ({ s with caps_word_state := false }, [mkReport 2 0])
  else
    (s, [])

/-- One externally-driven invocation of the module. -/
inductive Op where
  | layerChange (layer time : Nat)
  | capsOn
  | capsOff
  | hidReceive (data : Nat → Nat) (length highest_layer : Nat)

/-- Execute one operation: new state and transmitted reports. -/
def step (s : AccState) : Op → AccState × List (List Nat)
  | Op.layerChange layer t => accessibility_send_layer_change layer t s
  | Op.capsOn => accessibility_send_caps_word_on s
  | Op.capsOff => accessibility_send_caps_word_off s
  | Op.hidReceive data len hl => (s, raw_hid_receive data len hl)

/-- Execute a sequence of operations, concatenating the transmitted
reports in order. -/
def run (s : AccState) : List Op → AccState × List (List Nat)
  | [] => (s, [])
  | op :: ops =>
    ((run (step s op).fst ops).fst,
      (step s op).snd ++ (run (step s op).fst ops).snd)

/-- Payload (byte 1) of the last report in `reports` whose event type
(byte 0) is `t`, or `none` if no such report was transmitted. -/
def lastPayload (t : Nat) (reports : List (List Nat)) : Option Nat :=
  reports.foldl (fun acc r => if r.headD 0 = t then some (r.getD 1 0) else acc) none

/-- Accumulator form of `lastPayload` for the layer value: starts at `b`
and replaces it with the payload of every type-`t` report in order. -/
def payFold (t b : Nat) (reports : List (List Nat)) : Nat :=
  reports.foldl (fun acc r => if r.headD 0 = t then r.getD 1 0 else acc) b

/-- Accumulator form for the caps-word boolean: starts at `b` and after a
type-2 report holds whether its payload was 1. -/
def capsFold (b : Bool) (reports : List (List Nat)) : Bool :=
  reports.foldl (fun acc r => if r.headD 0 = 2 then decide (r.getD 1 0 = 1) else acc) b

/-- Real times of the transmitting calls in a sequence of
`accessibility_send_layer_change` invocations, given as
(layer, millisecond count) pairs in call order. -/
def layerWriteTimes (s : AccState) : List (Nat × Nat) → List Nat
  | [] => []
  | (layer, t) :: rest =>
    if (accessibility_send_layer_change layer t s).snd = [] then
      layerWriteTimes (accessibility_send_layer_change layer t s).fst rest
    else
      t :: layerWriteTimes (accessibility_send_layer_change layer t s).fst rest

/-- C1 counterexample: from the startup state, a call at t = 100 ms is
inside the debounce window, transmits nothing, but does NOT set
`last_time` to 100 — the early return on line 45 precedes the
`last_time = current_time` update on line 59. -/
theorem sendLayerChange_debounce_no_timestamp_update :
    usub32 100 initState.last_time < 200 ∧
    (accessibility_send_layer_change 1 100 initState).snd = [] ∧
    (accessibility_send_layer_change 1 100 initState).fst.last_time ≠ 100 := by
  refine ⟨by decide, by decide, by decide⟩

/-- C1 (amended): a call inside the 200 ms debounce window transmits
nothing and returns with the entire state — including `last_time` —
unchanged; `last_time` is updated only on the non-early-return path. -/
theorem sendLayerChange_debounce_skip :
    ∀ (layer t : Nat) (s : AccState),
      usub32 t s.last_time < 200 →
      accessibility_send_layer_change layer t s = (s, []) := by
  intro layer t s h
  simp [accessibility_send_layer_change, h]

/-- Witness for `sendLayerChange_debounce_skip` at layer 1, t = 100,
startup state. -/
theorem sendLayerChange_debounce_skip_witness :
    usub32 100 initState.last_time < 200 ∧
    accessibility_send_layer_change 1 100 initState = (initState, []) :=
  ⟨by decide, sendLayerChange_debounce_skip 1 100 initState (by decide)⟩

/-- C2 counterexample: from the fresh startup state, the call
`sendLayerChange(0)` at t = 0 does NOT transmit `[1, 0, 0×30]`: since
`last_time` starts at 0, the elapsed time 0 − 0 = 0 is inside the 200 ms
debounce window and the call transmits nothing. -/
theorem sendLayerChange_at_zero_suppressed :
    (accessibility_send_layer_change 0 0 initState).snd ≠ [mkReport 1 0] ∧
    (accessibility_send_layer_change 0 0 initState).snd = [] := by
  refine ⟨by decide, by decide⟩

/-- C2 (amended): from fresh startup, calls with different layer values at
0 ms and 150 ms are both debounce-suppressed (elapsed 0 and 150 ms since
the startup timestamp 0) and transmit nothing; a third call at 210 ms with
a new layer value transmits its report `[1, layer, 0×30]`. -/
theorem sendLayerChange_startup_trace :
    (run initState
        [Op.layerChange 0 0, Op.layerChange 1 150, Op.layerChange 2 210]).snd
      = [mkReport 1 2] ∧
    (accessibility_send_layer_change 0 0 initState).snd = [] ∧
    (accessibility_send_layer_change 1 150
        (accessibility_send_layer_change 0 0 initState).fst).snd = [] := by
  refine ⟨by decide, by decide, by decide⟩

/-- C10: because `previous_layer` is initialized to the sentinel 255 and
the no-change check compares the argument against it directly, calling
`sendLayerChange(255)` from the startup state never transmits, at any
time `t`. -/
theorem sendLayerChange_255_initial_never_transmits :
    ∀ t : Nat, (accessibility_send_layer_change 255 t initState).snd = [] := by
  intro t
  by_cases h : usub32 t 0 < 200 <;>
    simp [accessibility_send_layer_change, initState, h]

/-- Either a `sendLayerChange` call transmits nothing and leaves
`previous_layer` unchanged, or it transmits exactly `[1, layer, 0×30]` and
sets `previous_layer := layer`. -/
lemma send_layer_cases (layer t : Nat) (s : AccState) :
    ((accessibility_send_layer_change layer t s).snd = [] ∧
      (accessibility_send_layer_change layer t s).fst.previous_layer
        = s.previous_layer) ∨
    ((accessibility_send_layer_change layer t s).snd = [mkReport 1 layer] ∧
      (accessibility_send_layer_change layer t s).fst.previous_layer = layer) := by
  unfold accessibility_send_layer_change
  split
  · exact Or.inl ⟨rfl, rfl⟩
  · split
    · exact Or.inr ⟨rfl, rfl⟩
    · exact Or.inl ⟨rfl, rfl⟩

/-- A `sendLayerChange` call whose argument equals `previous_layer`
transmits nothing and keeps `previous_layer`. -/
lemma send_layer_same (layer t : Nat) (s : AccState)
    (h : s.previous_layer = layer) :
    (accessibility_send_layer_change layer t s).snd = [] ∧
    (accessibility_send_layer_change layer t s).fst.previous_layer = layer := by
  unfold accessibility_send_layer_change
  split
  · exact ⟨rfl, h⟩
  · split
    · simp_all
    · exact ⟨rfl, h⟩

/-- C3: past the debounce window, `sendLayerChange` transmits exactly one
32-byte report `[1, layer, 0×30]` and sets `previous_layer := layer` when
the layer changed, and transmits nothing when it did not; and two
consecutive `sendLayerChange(5)` calls with any timing transmit at most
one report, exactly zero when 5 was already the previously reported
layer. -/
theorem sendLayerChange_past_debounce :
    (∀ (layer t : Nat) (s : AccState), 200 ≤ usub32 t s.last_time →
      (mkReport 1 layer).length = 32 ∧
      (layer ≠ s.previous_layer →
        (accessibility_send_layer_change layer t s).snd = [mkReport 1 layer] ∧
        (accessibility_send_layer_change layer t s).fst.previous_layer = layer) ∧
      (layer = s.previous_layer →
        (accessibility_send_layer_change layer t s).snd = [])) ∧
    (∀ (t1 t2 : Nat) (s : AccState),
      ((accessibility_send_layer_change 5 t1 s).snd ++
        (accessibility_send_layer_change 5 t2
          (accessibility_send_layer_change 5 t1 s).fst).snd).length ≤ 1 ∧
      (s.previous_layer = 5 →
        ((accessibility_send_layer_change 5 t1 s).snd ++
          (accessibility_send_layer_change 5 t2
            (accessibility_send_layer_change 5 t1 s).fst).snd).length = 0)) := by
  constructor
  · intro layer t s h
    have h' : ¬ usub32 t s.last_time < 200 := by omega
    refine ⟨by simp [mkReport], ?_, ?_⟩
    · intro hne
      simp [accessibility_send_layer_change, h', hne]
    · intro heq
      simp [accessibility_send_layer_change, h', heq]
  · intro t1 t2 s
    constructor
    · rcases send_layer_cases 5 t1 s with ⟨h0, _⟩ | ⟨h0, hp⟩
      · rcases send_layer_cases 5 t2 (accessibility_send_layer_change 5 t1 s).fst
          with ⟨g0, _⟩ | ⟨g0, _⟩ <;> simp [h0, g0]
      · have h2 := send_layer_same 5 t2
          (accessibility_send_layer_change 5 t1 s).fst hp
        simp [h0, h2.1]
    · intro h5
      have h1 := send_layer_same 5 t1 s h5
      have h2 := send_layer_same 5 t2
        (accessibility_send_layer_change 5 t1 s).fst h1.2
      simp [h1.1, h2.1]

/-- Witness for `sendLayerChange_past_debounce`: at t = 300 from the
startup state the elapsed time is past the window, layer 4 differs from
the sentinel 255, and the report is transmitted; the two-call part is
instantiated at layer 5, times 300 and 310. -/
theorem sendLayerChange_past_debounce_witness :
    200 ≤ usub32 300 initState.last_time ∧
    (4 : Nat) ≠ initState.previous_layer ∧
    (accessibility_send_layer_change 4 300 initState).snd = [mkReport 1 4] ∧
    (accessibility_send_layer_change 4 300 initState).fst.previous_layer = 4 ∧
    ((accessibility_send_layer_change 5 300 initState).snd ++
      (accessibility_send_layer_change 5 310
        (accessibility_send_layer_change 5 300 initState).fst).snd).length ≤ 1 :=
  ⟨by decide, by decide,
    ((sendLayerChange_past_debounce.1 4 300 initState (by decide)).2.1 (by decide)).1,
    ((sendLayerChange_past_debounce.1 4 300 initState (by decide)).2.1 (by decide)).2,
    (sendLayerChange_past_debounce.2 300 310 initState).1⟩

/-- C5: the caps-word operations are edge-triggered and idempotent with no
time dependence: a second consecutive `on` (resp. `off`) call transmits
nothing from any state; from a state with caps word off, `on` twice
transmits exactly one report; and from startup the call sequence
on, on, off, off, on transmits exactly the three reports
`[2,1]`, `[2,0]`, `[2,1]` in order. -/
theorem capsWord_edge_triggered :
    (∀ s : AccState,
      (accessibility_send_caps_word_on
        (accessibility_send_caps_word_on s).fst).snd = []) ∧
    (∀ s : AccState,
      (accessibility_send_caps_word_off
        (accessibility_send_caps_word_off s).fst).snd = []) ∧
    (∀ s : AccState,
      ((accessibility_send_caps_word_on s).snd ++
        (accessibility_send_caps_word_on
          (accessibility_send_caps_word_on s).fst).snd).length
        = if s.caps_word_state then 0 else 1) ∧
    (run initState [Op.capsOn, Op.capsOn, Op.capsOff, Op.capsOff, Op.capsOn]).snd
      = [mkReport 2 1, mkReport 2 0, mkReport 2 1] := by
  refine ⟨?_, ?_, ?_, by decide⟩
  · intro s
    cases h : s.caps_word_state <;> simp [accessibility_send_caps_word_on, h]
  · intro s
    cases h : s.caps_word_state <;> simp [accessibility_send_caps_word_off, h]
  · intro s
    cases h : s.caps_word_state <;> simp [accessibility_send_caps_word_on, h]

/-- C6: an inbound packet with byte 0 = 99 makes `raw_hid_receive`
transmit exactly one 32-byte response `[99, L, 0×30]` in the same call,
where `L` is the live highest active layer, independent of the stored
state (which is left unchanged); in particular with live layer 3 the
response is `[99, 3, 0×30]`. -/
theorem hidReceive_query_roundtrip :
    ∀ (data : Nat → Nat) (len L : Nat) (s : AccState),
      data 0 = 99 →
      raw_hid_receive data len L = [mkReport 99 L] ∧
      (mkReport 99 L).length = 32 ∧
      step s (Op.hidReceive data len L) = (s, [mkReport 99 L]) := by
  intro data len L s h
  refine ⟨by simp [raw_hid_receive, h], by simp [mkReport], ?_⟩
  simp [step, raw_hid_receive, h]

/-- Witness for `hidReceive_query_roundtrip`: the all-99 buffer with live
highest layer 3 yields exactly `[99, 3, 0×30]`. -/
theorem hidReceive_query_roundtrip_witness :
    (fun _ : Nat => (99 : Nat)) 0 = 99 ∧
    raw_hid_receive (fun _ => 99) 32 3 = [mkReport 99 3] :=
  ⟨rfl, (hidReceive_query_roundtrip (fun _ => 99) 32 3 initState rfl).1⟩

/-- C7: an inbound packet whose byte 0 is not 99 is silently ignored:
no outbound report, no state change. -/
theorem hidReceive_unknown_command_noop :
    ∀ (data : Nat → Nat) (len L : Nat) (s : AccState),
      data 0 ≠ 99 →
      raw_hid_receive data len L = [] ∧
      step s (Op.hidReceive data len L) = (s, []) := by
  intro data len L s h
  refine ⟨by simp [raw_hid_receive, h], by simp [step, raw_hid_receive, h]⟩

/-- Witness for `hidReceive_unknown_command_noop`: inbound `[7, 0, ...]`
produces zero outbound reports and leaves the state unchanged. -/
theorem hidReceive_unknown_command_noop_witness :
    (fun _ : Nat => (7 : Nat)) 0 ≠ 99 ∧
    raw_hid_receive (fun _ => 7) 32 3 = [] ∧
    step initState (Op.hidReceive (fun _ => 7) 32 3) = (initState, []) :=
  ⟨by decide,
    (hidReceive_unknown_command_noop (fun _ => 7) 32 3 initState (by decide)).1,
    (hidReceive_unknown_command_noop (fun _ => 7) 32 3 initState (by decide)).2⟩

/-- C9: `raw_hid_receive` never reads the declared length: for every
buffer and any two length values (including 0) the transmitted reports
and the state effect are identical. -/
theorem hidReceive_ignores_length :
    ∀ (data : Nat → Nat) (l1 l2 L : Nat) (s : AccState),
      raw_hid_receive data l1 L = raw_hid_receive data l2 L ∧
      step s (Op.hidReceive data l1 L) = step s (Op.hidReceive data l2 L) := by
  intro data l1 l2 L s
  exact ⟨rfl, rfl⟩

/-- Unfolding `payFold` over one leading report. -/
lemma payFold_cons (t x : Nat) (r : List Nat) (rs : List (List Nat)) :
    payFold t x (r :: rs)
      = payFold t (if r.headD 0 = t then r.getD 1 0 else x) rs := rfl

/-- Unfolding `capsFold` over one leading report. -/
lemma capsFold_cons (x : Bool) (r : List Nat) (rs : List (List Nat)) :
    capsFold x (r :: rs)
      = capsFold (if r.headD 0 = 2 then decide (r.getD 1 0 = 1) else x) rs := rfl

/-- Appending reports threads the layer accumulator through `payFold`. -/
lemma payFold_append (t b : Nat) (xs ys : List (List Nat)) :
    payFold t b (xs ++ ys) = payFold t (payFold t b xs) ys := by
  simp [payFold, List.foldl_append]

/-- Appending reports threads the caps accumulator through `capsFold`. -/
lemma capsFold_append (b : Bool) (xs ys : List (List Nat)) :
    capsFold b (xs ++ ys) = capsFold (capsFold b xs) ys := by
  simp [capsFold, List.foldl_append]

/-- After one operation, `previous_layer` and `caps_word_state` are
obtained from their old values by folding the reports the operation
transmitted. -/
lemma step_inv (s : AccState) (op : Op) :
    (step s op).fst.previous_layer = payFold 1 s.previous_layer (step s op).snd ∧
    (step s op).fst.caps_word_state = capsFold s.caps_word_state (step s op).snd := by
  cases op with
  | layerChange layer t =>
    simp only [step]
    unfold accessibility_send_layer_change
    split
    · exact ⟨rfl, rfl⟩
    · split
      · constructor <;> simp [payFold, capsFold, mkReport]
      · exact ⟨rfl, rfl⟩
  | capsOn =>
    simp only [step]
    unfold accessibility_send_caps_word_on
    cases h : s.caps_word_state <;> simp [h, payFold, capsFold, mkReport]
  | capsOff =>
    simp only [step]
    unfold accessibility_send_caps_word_off
    cases h : s.caps_word_state <;> simp [h, payFold, capsFold, mkReport]
  | hidReceive data len hl =>
    simp only [step]
    unfold raw_hid_receive
    split <;> simp [payFold, capsFold, mkReport]

/-- Over a whole run, `previous_layer` and `caps_word_state` are the folds
of all transmitted reports over their starting values. -/
lemma run_inv (ops : List Op) :
    ∀ s : AccState,
      (run s ops).fst.previous_layer
        = payFold 1 s.previous_layer (run s ops).snd ∧
      (run s ops).fst.caps_word_state
        = capsFold s.caps_word_state (run s ops).snd := by
  induction ops with
  | nil => intro s; exact ⟨rfl, rfl⟩
  | cons op ops ih =>
    intro s
    have hstep := step_inv s op
    have hih := ih (step s op).fst
    constructor
    · show (run (step s op).fst ops).fst.previous_layer
        = payFold 1 s.previous_layer
            ((step s op).snd ++ (run (step s op).fst ops).snd)
      rw [hih.1, payFold_append, ← hstep.1]
    · show (run (step s op).fst ops).fst.caps_word_state
        = capsFold s.caps_word_state
            ((step s op).snd ++ (run (step s op).fst ops).snd)
      rw [hih.2, capsFold_append, ← hstep.2]

/-- Bridge between the `Option`-valued `lastPayload` fold and the
accumulator fold `payFold`, for an arbitrary starting accumulator. -/
lemma lastPayload_fold (t : Nat) (rs : List (List Nat)) :
    ∀ (o : Option Nat) (b : Nat),
      (rs.foldl
          (fun acc r => if r.headD 0 = t then some (r.getD 1 0) else acc) o).getD b
        = payFold t (o.getD b) rs := by
  induction rs with
  | nil => intro o b; rfl
  | cons r rs ih =>
    intro o b
    simp only [List.foldl_cons]
    rw [ih, payFold_cons]
    have hacc : (if r.headD 0 = t then some (r.getD 1 0) else o).getD b
        = if r.headD 0 = t then r.getD 1 0 else o.getD b := by
      split_ifs <;> simp
    rw [hacc]

/-- Bridge between the `Option`-valued `lastPayload` fold and the boolean
fold `capsFold` for the caps-word state. -/
lemma capsFold_lastPayload (rs : List (List Nat)) :
    ∀ (o : Option Nat) (bb : Bool),
      (o = some 1 ↔ bb = true) →
      ((rs.foldl
          (fun acc r => if r.headD 0 = 2 then some (r.getD 1 0) else acc) o) = some 1
        ↔ capsFold bb rs = true) := by
  induction rs with
  | nil => intro o bb h; exact h
  | cons r rs ih =>
    intro o bb h
    simp only [List.foldl_cons]
    rw [capsFold_cons]
    refine ih _ _ ?_
    split_ifs with hr
    · simp
    · exact h

/-- C4: in every run from startup, `previous_layer` equals the payload of
the last transmitted type-1 report (255 when none was ever transmitted)
and `caps_word_state` holds exactly when the last transmitted type-2
report carried payload 1 (initially false, no report transmitted); and any
single operation that transmits nothing (debounce or no-change skip)
leaves `previous_layer` and `caps_word_state` unchanged. -/
theorem state_reflects_last_transmitted :
    (∀ ops : List Op,
      (run initState ops).fst.previous_layer
        = (lastPayload 1 (run initState ops).snd).getD 255 ∧
      ((run initState ops).fst.caps_word_state = true ↔
        lastPayload 2 (run initState ops).snd = some 1)) ∧
    (∀ (s : AccState) (op : Op), (step s op).snd = [] →
      (step s op).fst.previous_layer = s.previous_layer ∧
      (step s op).fst.caps_word_state = s.caps_word_state) := by
  constructor
  · intro ops
    have hrun := run_inv ops initState
    constructor
    · rw [hrun.1]
      show _ = (lastPayload 1 (run initState ops).snd).getD 255
      rw [lastPayload, lastPayload_fold]
      rfl
    · rw [lastPayload, hrun.2]
      exact (capsFold_lastPayload _ none false (by simp)).symm
  · intro s op hempty
    have hstep := step_inv s op
    rw [hempty] at hstep
    exact hstep

/-- Witness for `state_reflects_last_transmitted`: from startup, a
caps-word-off call transmits nothing and leaves both state fields
unchanged. -/
theorem state_reflects_last_transmitted_witness :
    (step initState Op.capsOff).snd = [] ∧
    (step initState Op.capsOff).fst.previous_layer = initState.previous_layer ∧
    (step initState Op.capsOff).fst.caps_word_state = initState.caps_word_state :=
  ⟨by decide,
    (state_reflects_last_transmitted.2 initState Op.capsOff (by decide)).1,
    (state_reflects_last_transmitted.2 initState Op.capsOff (by decide)).2⟩

/-- With a monotone clock, the `uint32_t` debounce subtraction computes
the true elapsed time reduced modulo `2^32`. -/
lemma usub32_of_le (t tw : Nat) (h : tw ≤ t) :
    usub32 t (tw % U32) = (t - tw) % U32 := by
  unfold usub32 U32
  omega

/-- A call inside the debounce window returns state and output unchanged. -/
lemma send_layer_early (layer t : Nat) (s : AccState)
    (h : usub32 t s.last_time < 200) :
    accessibility_send_layer_change layer t s = (s, []) := by
  simp [accessibility_send_layer_change, h]

/-- A call past the debounce window stores the reduced current time in
`last_time`, whether or not it transmits. -/
lemma send_layer_late_time (layer t : Nat) (s : AccState)
    (h : ¬ usub32 t s.last_time < 200) :
    (accessibility_send_layer_change layer t s).fst.last_time = t % U32 := by
  unfold accessibility_send_layer_change
  rw [if_neg h]
  split <;> rfl

/-- Debounce separation: from a state whose `last_time` is the reduction
of a real time `tw` preceding every call, with nondecreasing call times,
every transmitting call is at least 200 ms past `tw`, and any two
transmitting calls are at least 200 ms apart. -/
lemma layerWriteTimes_sep (calls : List (Nat × Nat)) :
    ∀ (s : AccState) (tw : Nat),
      s.last_time = tw % U32 →
      (∀ c ∈ calls, tw ≤ c.2) →
      List.Pairwise (fun a b : Nat × Nat => a.2 ≤ b.2) calls →
      (∀ w ∈ layerWriteTimes s calls, tw + 200 ≤ w) ∧
      List.Pairwise (fun a b : Nat => a + 200 ≤ b) (layerWriteTimes s calls) := by
  induction calls with
  | nil =>
    intro s tw _ _ _
    refine ⟨?_, by simp [layerWriteTimes]⟩
    intro w hw
    simp [layerWriteTimes] at hw
  | cons c rest ih =>
    obtain ⟨layer, t⟩ := c
    intro s tw hlt hge hmono
    have htw_t : tw ≤ t := hge (layer, t) (List.mem_cons_self _ _)
    have hge' : ∀ c ∈ rest, t ≤ c.2 := (List.pairwise_cons.mp hmono).1
    have hmono' := (List.pairwise_cons.mp hmono).2
    by_cases hd : usub32 t s.last_time < 200
    · have heq := send_layer_early layer t s hd
      have hrec := ih s tw hlt
        (fun c hc => hge c (List.mem_cons_of_mem _ hc)) hmono'
      have hunfold : layerWriteTimes s ((layer, t) :: rest)
          = layerWriteTimes s rest := by
        simp [layerWriteTimes, heq]
      rw [hunfold]
      exact hrec
    · have h200 : 200 ≤ (t - tw) % U32 := by
        rw [hlt, usub32_of_le t tw htw_t] at hd
        omega
      have ht : tw + 200 ≤ t := by
        have hmle : (t - tw) % U32 ≤ t - tw := Nat.mod_le _ _
        omega
      have hlast := send_layer_late_time layer t s hd
      have hrec := ih (accessibility_send_layer_change layer t s).fst t
        hlast hge' hmono'
      by_cases hout : (accessibility_send_layer_change layer t s).snd = []
      · have hunfold : layerWriteTimes s ((layer, t) :: rest)
            = layerWriteTimes (accessibility_send_layer_change layer t s).fst rest := by
          simp [layerWriteTimes, hout]
        rw [hunfold]
        refine ⟨fun w hw => ?_, hrec.2⟩
        have := hrec.1 w hw
        omega
      · have hunfold : layerWriteTimes s ((layer, t) :: rest)
            = t :: layerWriteTimes (accessibility_send_layer_change layer t s).fst rest := by
          simp [layerWriteTimes, hout]
        rw [hunfold]
        constructor
        · intro w hw
          rcases List.mem_cons.mp hw with rfl | hw'
          · omega
          · have := hrec.1 w hw'
            omega
        · refine List.pairwise_cons.mpr ⟨fun w hw => ?_, hrec.2⟩
          have := hrec.1 w hw
          omega

/-- C8: `sendLayerChange` performs at most one transport write per call,
and across any sequence of calls with nondecreasing clock readings the
times of any two transmitting calls are at least 200 ms apart. -/
theorem sendLayerChange_rate_limit :
    (∀ (layer t : Nat) (s : AccState),
      (accessibility_send_layer_change layer t s).snd.length ≤ 1) ∧
    (∀ calls : List (Nat × Nat),
      List.Pairwise (fun a b : Nat × Nat => a.2 ≤ b.2) calls →
      List.Pairwise (fun a b : Nat => a + 200 ≤ b)
        (layerWriteTimes initState calls)) := by
  constructor
  · intro layer t s
    rcases send_layer_cases layer t s with ⟨h, _⟩ | ⟨h, _⟩ <;> simp [h]
  · intro calls hmono
    exact (layerWriteTimes_sep calls initState 0 (by decide)
      (fun c _ => Nat.zero_le _) hmono).2

/-- Witness for `sendLayerChange_rate_limit`: two calls at 200 ms and
450 ms both transmit, and their write times are 200 ms apart. -/
theorem sendLayerChange_rate_limit_witness :
    List.Pairwise (fun a b : Nat × Nat => a.2 ≤ b.2)
      [((1 : Nat), (200 : Nat)), (2, 450)] ∧
    layerWriteTimes initState [(1, 200), (2, 450)] = [200, 450] ∧
    List.Pairwise (fun a b : Nat => a + 200 ≤ b)
      (layerWriteTimes initState [(1, 200), (2, 450)]) :=
  ⟨by decide, by decide,
    sendLayerChange_rate_limit.2 [(1, 200), (2, 450)] (by decide)⟩
